import Mathlib

set_option maxRecDepth 100000

/-!
Verification of the core of `meeting-transcriber` against its
natural-language specification.

The embedding below models Python strings as `List Char` (Python `len`
counts code points, as does `List.length` on `Char`), Python lists as
Lean lists, and the fallible LLM backend call `backend.generate` as an
oracle function returning `Except` (Python raising ↦ `Except.error`).
-/

/-- Python strings are modelled as lists of unicode scalar values. -/
abbrev PyStr := List Char

/-- Characters removed by Python `str.strip()` with no argument (ASCII
whitespace; exotic unicode space classes are outside the model). -/
def isPyWhitespace (c : Char) : Bool :=
  c = ' ' ∨ c = '\t' ∨ c = '\n' ∨ c = '\r' ∨ c = '\x0b' ∨ c = '\x0c'

/-- Model of Python `str.strip()`: drop leading and trailing whitespace. -/
def pyStrip (s : PyStr) : PyStr :=
  ((s.dropWhile isPyWhitespace).reverse.dropWhile isPyWhitespace).reverse

/-- Model of Python `s.split(',')`: split on every comma, keeping empty
parts, so the result always has one more part than there are commas. -/
def splitOnComma : PyStr → List PyStr
  | [] => [[]]
  | c :: rest =>
    if c = ',' then [] :: splitOnComma rest
    else
      match splitOnComma rest with
      | [] => [[c]]
      | h :: t => (c :: h) :: t

/-- Value of a nonempty string of decimal digits, `none` otherwise. -/
def digitsVal? : PyStr → Option Nat
  | [] => none
  | l =>
    if l.all (·.isDigit) then
      some (l.foldl (fun acc c => acc * 10 + (c.toNat - '0'.toNat)) 0)
    else none

/-- Model of Python `int(s)` restricted to an optional sign followed by
decimal digits; every other shape (and exotic accepted forms such as
digit-group underscores or non-ASCII digits, outside the model) is
`none`, standing for `int` raising `ValueError`. -/
def parsePyInt : PyStr → Option Int
  | '-' :: rest => (digitsVal? rest).map (fun n => -(n : Int))
  | '+' :: rest => (digitsVal? rest).map (fun n => (n : Int))
  | l => (digitsVal? l).map (fun n => (n : Int))

/-- Model of the Python slice `l[-k:]`: the suffix of length `k`, except
that `k = 0` yields the whole list (Python `-0` is `0`, so `l[-0:]` is
`l[0:]`). -/
def pySuffix (l : List α) (k : Nat) : List α :=
  if k = 0 then l else l.drop (l.length - k)

/-! ## Transcript data model (config.py) -/

/-- A transcript entry (`config.TranscriptEntry`).  The source stores a
`datetime` and renders it with `strftime('%H:%M:%S')`; the model stores
that already-rendered clock string. -/
structure TranscriptEntry where
  timestamp : PyStr
  text : PyStr
  index : Nat
deriving DecidableEq, Repr

/-- Model of `TranscriptEntry.__str__`: `[HH:MM:SS] text`. -/
def renderEntry (e : TranscriptEntry) : PyStr :=
  '[' :: e.timestamp ++ ']' :: ' ' :: e.text

/-- Model of `'\n'.join(str(t) for t in transcripts)`. -/
def joinRendered : List TranscriptEntry → PyStr
  | [] => []
  | [e] => renderEntry e
  | e :: rest => renderEntry e ++ '\n' :: joinRendered rest

/-! ## Minutes updater (minutes.py) -/

/-- The result record `config.UpdateResult`. -/
structure UpdateResult where
  success : Bool
  minutes : PyStr
  new_entries_count : Nat
  total_entries_count : Nat
  update_number : Nat
  error : Option PyStr
deriving DecidableEq, Repr

/-- The mutable session state owned by `MinutesUpdater` (the fields
assigned in `MinutesUpdater.__init__`; filesystem-only fields such as
the output directory are not modelled). -/
structure UpdaterState where
  last_update_index : Nat
  update_count : Nat
  current_minutes : PyStr
deriving DecidableEq, Repr

/-- Oracle for the generation collaborator as seen from the updater:
`MinutesGenerator.generate_full` and `generate_incremental` either
return text or raise (`Except.error`).  The template and the wall-clock
context passed by the source do not influence the updater's control
flow and are absorbed into the oracle. -/
structure Generator where
  generate_full : List TranscriptEntry → Except PyStr PyStr
  generate_incremental : PyStr → List TranscriptEntry → Except PyStr PyStr

/-- Marker for which generation collaborator call `update` performed. -/
inductive GenCall where
  | full
  | incremental
deriving DecidableEq, Repr

/-- Model of `MinutesUpdater.get_new_transcripts`:
`transcripts[self.last_update_index:]`. -/
def MinutesUpdater.get_new_transcripts (s : UpdaterState)
    (transcripts : List TranscriptEntry) : List TranscriptEntry :=
  transcripts.drop s.last_update_index

/-- Model of `MinutesUpdater.update`.  Returns the `UpdateResult`, the
state after the call, and the list of generation calls performed.
`self.update_count += 1` is the tentative increment; the `except`
branch models any exception raised by the generation collaborator
(`self.update_count -= 1`, state otherwise untouched).  The
version-history save is a filesystem side effect and is not modelled. -/
def MinutesUpdater.update (gen : Generator) (s : UpdaterState)
    (transcripts : List TranscriptEntry) (full : Bool) :
    UpdateResult × UpdaterState × List GenCall :=
  if transcripts.isEmpty then
    ({ success := false, minutes := [], new_entries_count := 0,
       total_entries_count := 0, update_number := s.update_count,
       error := some "文字起こしがありません".data }, s, [])
  else
    let uc := s.update_count + 1
    if full || uc == 1 then
      match gen.generate_full transcripts with
      | .ok m =>
        ({ success := true, minutes := m,
           new_entries_count := transcripts.length,
           total_entries_count := transcripts.length,
           update_number := uc, error := none },
         { last_update_index := transcripts.length, update_count := uc,
           current_minutes := m }, [GenCall.full])
      | .error e =>
        ({ success := false, minutes := s.current_minutes,
           new_entries_count := 0,
           total_entries_count := transcripts.length,
           update_number := s.update_count, error := some e },
         s, [GenCall.full])
    else
      let new_transcripts := MinutesUpdater.get_new_transcripts s transcripts
      if new_transcripts.isEmpty then
        ({ success := true, minutes := s.current_minutes,
           new_entries_count := 0,
           total_entries_count := transcripts.length,
           update_number := s.update_count, error := none }, s, [])
      else
        match gen.generate_incremental s.current_minutes new_transcripts with
        | .ok m =>
          ({ success := true, minutes := m,
             new_entries_count := new_transcripts.length,
             total_entries_count := transcripts.length,
             update_number := uc, error := none },
           { last_update_index := transcripts.length, update_count := uc,
             current_minutes := m }, [GenCall.incremental])
        | .error e =>
          ({ success := false, minutes := s.current_minutes,
             new_entries_count := 0,
             total_entries_count := transcripts.length,
             update_number := s.update_count, error := some e },
           s, [GenCall.incremental])

/-- The freshly constructed session state (`MinutesUpdater.__init__`). -/
def UpdaterState.init : UpdaterState :=
  { last_update_index := 0, update_count := 0, current_minutes := [] }

/-- A generator oracle that always fails, used by concrete witnesses. -/
def genFail : Generator :=
  { generate_full := fun _ => .error "boom".data,
    generate_incremental := fun _ _ => .error "boom".data }

/-- A generator oracle that always succeeds with fixed text, used by
concrete witnesses. -/
def genOk : Generator :=
  { generate_full := fun _ => .ok "minutes".data,
    generate_incremental := fun _ _ => .ok "minutes".data }

/-- A small concrete transcript entry used by concrete witnesses. -/
def sampleEntry : TranscriptEntry :=
  { timestamp := "00:00:00".data, text := "hello".data, index := 0 }

/-! ## Chunk splitter (chunking.py) -/

/-- Splitting threshold in characters (`CHUNK_THRESHOLD`). -/
def CHUNK_THRESHOLD : Nat := 20000

/-- Boundary-detection window cap in characters
(`BOUNDARY_DETECTION_MAX`). -/
def BOUNDARY_DETECTION_MAX : Nat := 30000

/-- The `Chunk` dataclass. -/
structure Chunk where
  entries : List TranscriptEntry
  start_index : Nat
  end_index : Nat
deriving DecidableEq, Repr

/-- Oracle for `backend.generate` as used by the chunk splitter: the
prompt string in, either the reply text or a raised error out. -/
abbrev BackendOracle := PyStr → Except PyStr PyStr

/-- Model of `ChunkSplitter._parse_boundaries`: strip the reply; `なし`
or an empty reply means no boundaries; otherwise remove spaces, split
on commas, parse each part as an integer (malformed parts are silently
dropped), keep only indices strictly inside `(min_idx, max_idx)`, and
return them sorted ascending. -/
def ChunkSplitter.parse_boundaries (result : PyStr) (min_idx max_idx : Int) :
    List Int :=
  let r := pyStrip result
  if r = "なし".data ∨ r = [] then []
  else
    let parts := splitOnComma (r.filter (fun c => c ≠ ' '))
    let nums := parts.filterMap parsePyInt
    let boundaries :=
      nums.filter (fun idx => decide (min_idx < idx) && decide (idx < max_idx))
    List.insertionSort (· ≤ ·) boundaries

/-- The window-accumulation loop at the top of `_detect_boundaries`:
given the entries from `window_start` on and the accumulated
`window_text_len`, take entries while adding the next rendered entry
would not exceed `BOUNDARY_DETECTION_MAX`; each taken entry adds its
rendered length plus one.  Returns how many entries were taken and the
final `window_text_len`. -/
def windowScan : List TranscriptEntry → Nat → Nat × Nat
  | [], wtl => (0, wtl)
  | e :: rest, wtl =>
    let L := (renderEntry e).length
    if wtl + L > BOUNDARY_DETECTION_MAX then (0, wtl)
    else
      let r := windowScan rest (wtl + L + 1)
      (r.1 + 1, r.2)

/-- One numbered line of the boundary-detection window:
`f'{window_start + i}: {e}'`. -/
def numberedEntry (i : Nat) (e : TranscriptEntry) : PyStr :=
  (Nat.repr i).data ++ ':' :: ' ' :: renderEntry e

/-- Model of `'\n'.join(f'{window_start + i}: {e}' ...)`. -/
def joinNumbered (i : Nat) : List TranscriptEntry → PyStr
  | [] => []
  | [e] => numberedEntry i e
  | e :: rest => numberedEntry i e ++ '\n' :: joinNumbered (i + 1) rest

/-- The numbered rendering of the current scanning window. -/
def windowText (ts : List TranscriptEntry) (ws n : Nat) : PyStr :=
  joinNumbered ws ((ts.drop ws).take n)

/-- The part of `BOUNDARY_DETECTION_PROMPT` before the transcript
placeholder. -/
def boundaryPromptHead : PyStr :=
  "以下の会議の文字起こしを読んで、話題が変わる区切り位置を特定してください。\n\n【文字起こし】\n".data

/-- The part of `BOUNDARY_DETECTION_PROMPT` after the transcript
placeholder. -/
def boundaryPromptTail : PyStr :=
  "\n\n【指示】\n- 話題や議論テーマが明確に変わる箇所を見つけてください\n- 区切り位置は発言のインデックス番号（[HH:MM:SS]の前の番号）で指定してください\n- 区切りがない場合は「なし」と回答してください\n- 複数ある場合はカンマ区切りで回答してください\n\n【出力形式】\n区切り位置のインデックス番号のみを出力してください。例: 5,12,23\n区切りがない場合: なし\n".data

/-- Model of `BOUNDARY_DETECTION_PROMPT.format(transcript=...)`. -/
def boundaryPrompt (transcript : PyStr) : PyStr :=
  boundaryPromptHead ++ transcript ++ boundaryPromptTail

/-- Fuelled model of the `while` loop of
`ChunkSplitter._detect_boundaries`.  Returns the recorded boundaries
and the number of `backend.generate` calls made.  Accepted boundaries
are strictly greater than `window_start`, hence nonnegative, so they
are carried as `Nat` via `Int.toNat`.  The fuel bounds the number of
loop iterations; `window_start` strictly increases whenever the window
holds at least two entries, so `ts.length + 1` fuel is enough wherever
the Python loop terminates (the Python loop diverges if a single entry
renders to `CHUNK_THRESHOLD` or more characters, a case no claim
touches). -/
def detectLoop (gen : BackendOracle) (ts : List TranscriptEntry) :
    Nat → Nat → List Nat × Nat
  | 0, _ => ([], 0)
  | fuel + 1, ws =>
    if ws < ts.length then
      let scan := windowScan (ts.drop ws) 0
      if scan.1 = 0 then ([], 0)
      else if scan.2 < CHUNK_THRESHOLD then ([], 0)
      else
        let prompt := boundaryPrompt (windowText ts ws scan.1)
        match gen prompt with
        | .ok result =>
          match ChunkSplitter.parse_boundaries result (ws : Int)
              ((ws : Int) + (scan.1 : Int)) with
          | b :: _ =>
            let r := detectLoop gen ts fuel b.toNat
            (b.toNat :: r.1, r.2 + 1)
          | [] =>
            let mid := ws + scan.1 / 2
            let r := detectLoop gen ts fuel mid
            (mid :: r.1, r.2 + 1)
        | .error _ =>
          let mid := ws + scan.1 / 2
          let r := detectLoop gen ts fuel mid
          (mid :: r.1, r.2 + 1)
    else ([], 0)

/-- Model of `ChunkSplitter._detect_boundaries`, with its call count. -/
def ChunkSplitter.detect_boundaries (gen : BackendOracle)
    (ts : List TranscriptEntry) : List Nat × Nat :=
  detectLoop gen ts (ts.length + 1) 0

/-- The chunk-building loop of `ChunkSplitter.split`: slice the
transcript at every recorded boundary greater than the running start
index, then make any leftover tail the last chunk. -/
def buildChunksAux (ts : List TranscriptEntry) : List Nat → Nat → List Chunk
  | [], start_idx =>
    if start_idx < ts.length then
      [{ entries := ts.drop start_idx, start_index := start_idx,
         end_index := ts.length - 1 }]
    else []
  | b :: rest, start_idx =>
    if start_idx < b then
      { entries := (ts.drop start_idx).take (b - start_idx),
        start_index := start_idx, end_index := b - 1 } ::
        buildChunksAux ts rest b
    else buildChunksAux ts rest start_idx

/-- Model of `ChunkSplitter.split`, paired with the number of
`backend.generate` calls made. -/
def ChunkSplitter.split (gen : BackendOracle) (ts : List TranscriptEntry) :
    List Chunk × Nat :=
  if ts.isEmpty then ([], 0)
  else if (joinRendered ts).length ≤ CHUNK_THRESHOLD then
    ([{ entries := ts, start_index := 0, end_index := ts.length - 1 }], 0)
  else
    let d := ChunkSplitter.detect_boundaries gen ts
    let chunks := buildChunksAux ts d.1 0
    (if chunks.isEmpty then
      [{ entries := ts, start_index := 0, end_index := ts.length - 1 }]
    else chunks, d.2)

/-- A backend oracle that always replies `なし`, used in scenario B. -/
def genNashi : BackendOracle := fun _ => .ok "なし".data

/-- A backend oracle that always raises, used in concrete witnesses. -/
def genRaise : BackendOracle := fun _ => .error "down".data

/-- A scenario-B entry whose rendering is exactly 1000 characters
(`[HH:MM:SS] ` is 11 characters, plus 989 text characters). -/
def longEntry (i : Nat) : TranscriptEntry :=
  { timestamp := "00:00:00".data, text := List.replicate 989 'あ', index := i }

/-- Spec scenario B: 25 entries rendering to 25,024 characters in
total, above `CHUNK_THRESHOLD` and within one detection window. -/
def ts25 : List TranscriptEntry := (List.range 25).map longEntry

/-! ## Audio windowing and bounded queue (audio.py) -/

/-- The state touched by `AudioRecorder._audio_callback`: the pending
sample buffer (the source keeps a list of blocks and concatenates them;
the model keeps them already concatenated, which is what every use
does), the retained tail of the previous window, and the bounded chunk
queue (front = oldest).  Samples are opaque values of a type `α`; the
source's float32 arrays are only ever moved and sliced, never
computed with. -/
structure RecState (α : Type) where
  buffer : List α
  keep_buffer : Option (List α)
  queue : List (List α)
deriving DecidableEq, Repr

/-- The recorder state right after `AudioRecorder.__init__`. -/
def recInit : RecState α :=
  { buffer := [], keep_buffer := none, queue := [] }

/-- Model of the queue interaction in `_audio_callback`: `put_nowait`;
on `queue.Full` (only possible when `0 < N ≤ len`), `get_nowait` the
oldest then `put_nowait` the new chunk.  A `maxsize ≤ 0` Python queue
is unbounded; the inner `queue.Empty` arm (`pass`) is unreachable
single-threaded because a full queue with `N ≥ 1` is non-empty. -/
def queuePush (N : Nat) (q : List (List α)) (c : List α) : List (List α) :=
  if N = 0 ∨ q.length < N then q ++ [c]
  else if q.isEmpty then q
  else q.drop 1 ++ [c]

/-- The tail stored for the next window
(`keep_samples = window_samples - step_samples`; keep the last
`keep_samples` samples of the chunk, or the whole chunk if shorter). -/
def keepOf (window step : Nat) (chunk : List α) : List α :=
  if window - step < chunk.length then pySuffix chunk (window - step)
  else chunk

/-- Model of `AudioRecorder._audio_callback` on one input block (the
non-paused path): accumulate the block; once at least `step` samples
are pending, build the window from the retained tail plus the pending
samples, truncate it from the front to `window` samples, store the new
retained tail, reset the buffer, push the window on the queue and
deliver it (the returned `Option`). -/
def audioCallback (step window N : Nat) (s : RecState α) (indata : List α) :
    RecState α × Option (List α) :=
  let buffer := s.buffer ++ indata
  if step ≤ buffer.length then
    let chunk0 := match s.keep_buffer with
      | some k => k ++ buffer
      | none => buffer
    let chunk := if window < chunk0.length then pySuffix chunk0 window
      else chunk0
    ({ buffer := [], keep_buffer := some (keepOf window step chunk),
       queue := queuePush N s.queue chunk }, some chunk)
  else
    ({ s with buffer := buffer }, none)

/-- The untruncated window a firing callback assembles: the retained
tail (if any) followed by the pending samples. -/
def chunkOf (s : RecState α) (b : List α) : List α :=
  match s.keep_buffer with
  | some k => k ++ (s.buffer ++ b)
  | none => s.buffer ++ b

/-- Feed a sequence of input blocks through `_audio_callback`,
collecting the emitted windows in order. -/
def runCallbacks (step window N : Nat) (s : RecState α) :
    List (List α) → RecState α × List (List α)
  | [] => (s, [])
  | b :: bs =>
    let r := audioCallback step window N s b
    let rest := runCallbacks step window N r.1 bs
    (rest.1, r.2.toList ++ rest.2)

/-- Model of the flush in `AudioRecorder.stop`: if samples are still
pending below the step threshold, they are emitted as one final
undersized window (the source then enqueues it with a blocking `put`;
the queue side is not part of the claims and is not modelled here). -/
def stopFlushWindow (s : RecState α) : Option (List α) :=
  if s.buffer.isEmpty then none else some s.buffer

/-- The retained tail of `prev` that the following window starts with:
the suffix of length `min (window - step) prev.length`. -/
def overlapTail (window step : Nat) (prev : List α) : List α :=
  prev.drop (prev.length - (window - step))

/-- The spec's overlap property for two consecutive windows: the later
window begins with the earlier window's retained tail of length
`min (window - step) prev.length` (the "available history"). -/
def overlapSpec (window step : Nat) (p n : List α) : Prop :=
  n.take (min (window - step) p.length) = overlapTail window step p

/-- Scenario-A input block: 5 seconds of samples at 16 kHz, tagged by
the feed number so that overlaps are observable. -/
def blockA (i : Nat) : List Nat := List.replicate 80000 i

/-- The windows the callback emits when every input block has exactly
`step` samples, as a function of the previously emitted window (if
any): each block fires once and emits the previous window's overlap
tail followed by the block. -/
def exactEmits (window step : Nat) : Option (List α) → List (List α) → List (List α)
  | _, [] => []
  | none, b :: bs => b :: exactEmits window step (some b) bs
  | some p, b :: bs =>
    (overlapTail window step p ++ b) ::
      exactEmits window step (some (overlapTail window step p ++ b)) bs

/-! ## Theorems -/

/-- C1: for every non-empty transcript snapshot, if the generation
collaborator call made inside `MinutesUpdater.update` raises a failure,
then `update` returns a result with `success = false` carrying the
error, and the session state is exactly as before the call
(`current_minutes`, `last_update_index` unchanged, tentative
`update_count` increment rolled back).  The branch hypothesis states
that `update` reaches a generation call at all (full synthesis
requested, first-ever update, or new entries present). -/
theorem c1_update_failure_rollback (gen : Generator) (s : UpdaterState)
    (transcripts : List TranscriptEntry) (full : Bool) (err : PyStr)
    (hne : transcripts ≠ [])
    (hbranch : full = true ∨ s.update_count = 0 ∨
      transcripts.drop s.last_update_index ≠ [])
    (hfull : gen.generate_full transcripts = .error err)
    (hinc : gen.generate_incremental s.current_minutes
      (transcripts.drop s.last_update_index) = .error err) :
    MinutesUpdater.update gen s transcripts full =
      ({ success := false, minutes := s.current_minutes,
         new_entries_count := 0,
         total_entries_count := transcripts.length,
         update_number := s.update_count, error := some err }, s,
       if full = true ∨ s.update_count = 0 then [GenCall.full]
       else [GenCall.incremental]) := by
  have hne' : transcripts.isEmpty = false := by
    simpa [List.isEmpty_iff] using hne
  unfold MinutesUpdater.update MinutesUpdater.get_new_transcripts
  rw [hne']
  cases full with
  | true => simp [hfull]
  | false =>
    by_cases hzero : s.update_count = 0
    · simp [hzero, hfull]
    · have hnew : transcripts.drop s.last_update_index ≠ [] := by
        rcases hbranch with h | h | h
        · exact absurd h (by simp)
        · exact absurd h hzero
        · exact h
      have hnew' : (transcripts.drop s.last_update_index).isEmpty = false := by
        simpa [List.isEmpty_iff] using hnew
      simp [hzero, hnew', hinc, Nat.succ_ne_succ, hne']

/-- Closed witness for `c1_update_failure_rollback` at a concrete
fresh-session input with an always-failing generator. -/
theorem c1_update_failure_rollback_witness :
    MinutesUpdater.update genFail UpdaterState.init [sampleEntry] false =
      ({ success := false, minutes := [], new_entries_count := 0,
         total_entries_count := 1, update_number := 0,
         error := some "boom".data }, UpdaterState.init,
       [GenCall.full]) := by
  have h := c1_update_failure_rollback genFail UpdaterState.init
    [sampleEntry] false "boom".data (by decide)
    (Or.inr (Or.inl rfl)) rfl rfl
  simpa using h

/-- C2: a no-op incremental update.  For a non-empty snapshot with no
entries strictly after `last_update_index`, `update(full := false)`
returns `success = true`, `new_entries_count = 0` and the unchanged
current document, makes no generation call, and leaves the session
state unchanged (the tentative `update_count` increment is decremented
back).  The last hypothesis is the session-state invariant (spec §3): a
strictly positive `last_update_index` implies at least one committed
update, so `update_count ≥ 1`. -/
theorem c2_update_noop_incremental (gen : Generator) (s : UpdaterState)
    (transcripts : List TranscriptEntry)
    (hne : transcripts ≠ [])
    (hidx : transcripts.length ≤ s.last_update_index)
    (hinv : 0 < s.last_update_index → 1 ≤ s.update_count) :
    MinutesUpdater.update gen s transcripts false =
      ({ success := true, minutes := s.current_minutes,
         new_entries_count := 0,
         total_entries_count := transcripts.length,
         update_number := s.update_count, error := none }, s, []) := by
  have hne' : transcripts.isEmpty = false := by
    simpa [List.isEmpty_iff] using hne
  have hlen : 0 < transcripts.length := List.length_pos.mpr hne
  have huc : 1 ≤ s.update_count := hinv (lt_of_lt_of_le hlen hidx)
  have hzero : s.update_count ≠ 0 := by omega
  have hdrop : transcripts.drop s.last_update_index = [] :=
    List.drop_eq_nil_of_le hidx
  unfold MinutesUpdater.update MinutesUpdater.get_new_transcripts
  rw [hne']
  simp [hzero, hdrop]

/-- Closed witness for `c2_update_noop_incremental` at a concrete state
with one already-incorporated entry. -/
theorem c2_update_noop_incremental_witness :
    MinutesUpdater.update genOk
      { last_update_index := 1, update_count := 1,
        current_minutes := "doc".data } [sampleEntry] false =
      ({ success := true, minutes := "doc".data, new_entries_count := 0,
         total_entries_count := 1, update_number := 1, error := none },
       { last_update_index := 1, update_count := 1,
         current_minutes := "doc".data }, []) := by
  exact c2_update_noop_incremental genOk
    { last_update_index := 1, update_count := 1,
      current_minutes := "doc".data } [sampleEntry]
    (by decide) (by decide) (fun _ => le_refl 1)

/-- C3: on a fresh session (no committed update yet, `update_count = 0`,
state `EMPTY`), the first `update` call with a non-empty snapshot
performs full synthesis regardless of the `full` flag; on success it
sets `new_entries_count` and `last_update_index` to the total entry
count and leaves `update_count = 1`. -/
theorem c3_first_update_is_full (gen : Generator) (s : UpdaterState)
    (transcripts : List TranscriptEntry) (full : Bool) (m : PyStr)
    (hne : transcripts ≠ [])
    (hfresh : s.update_count = 0) :
    (MinutesUpdater.update gen s transcripts full).2.2 = [GenCall.full] ∧
    (gen.generate_full transcripts = .ok m →
      MinutesUpdater.update gen s transcripts full =
        ({ success := true, minutes := m,
           new_entries_count := transcripts.length,
           total_entries_count := transcripts.length,
           update_number := 1, error := none },
         { last_update_index := transcripts.length, update_count := 1,
           current_minutes := m }, [GenCall.full])) := by
  have hne' : transcripts.isEmpty = false := by
    simpa [List.isEmpty_iff] using hne
  unfold MinutesUpdater.update
  rw [hne']
  constructor
  · cases hg : gen.generate_full transcripts with
    | ok m' => simp [hfresh, hg]
    | error e => simp [hfresh, hg]
  · intro hok
    simp [hfresh, hok]

/-- Closed witness for `c3_first_update_is_full` at a concrete fresh
session with `full := false` and a succeeding generator. -/
theorem c3_first_update_is_full_witness :
    MinutesUpdater.update genOk UpdaterState.init [sampleEntry] false =
      ({ success := true, minutes := "minutes".data,
         new_entries_count := 1, total_entries_count := 1,
         update_number := 1, error := none },
       { last_update_index := 1, update_count := 1,
         current_minutes := "minutes".data }, [GenCall.full]) :=
  (c3_first_update_is_full genOk UpdaterState.init [sampleEntry] false
    "minutes".data (by decide) rfl).2 rfl

/-- Concatenating the entries of the chunks built by `buildChunksAux`
reconstructs the transcript from the running start index on, whatever
the recorded boundary list is. -/
theorem buildChunksAux_flatten (ts : List TranscriptEntry) (bs : List Nat) :
    ∀ start_idx,
      ((buildChunksAux ts bs start_idx).map Chunk.entries).flatten =
        ts.drop start_idx := by
  induction bs with
  | nil =>
    intro start_idx
    by_cases h : start_idx < ts.length
    · simp [buildChunksAux, h]
    · simp [buildChunksAux, h, List.drop_eq_nil_of_le (le_of_not_lt h)]
  | cons b rest ih =>
    intro start_idx
    by_cases h : start_idx < b
    · have hdrop : ts.drop b = (ts.drop start_idx).drop (b - start_idx) := by
        rw [List.drop_drop]
        congr 1
        omega
      simp only [buildChunksAux, h, if_true, List.map_cons, List.flatten_cons, ih b]
      rw [hdrop, List.take_append_drop]
    · simp [buildChunksAux, h, ih]

/-- C10: splitting an empty transcript returns an empty chunk list —
not a single empty chunk — and makes no collaborator call. -/
theorem c10_split_empty_transcript (gen : BackendOracle) :
    ChunkSplitter.split gen [] = ([], 0) := rfl

/-- C4 as frozen is refuted at the empty transcript: its total rendered
length is `0 ≤ CHUNK_THRESHOLD`, yet `split` returns no chunk at all
rather than a single chunk. -/
theorem c4_counterexample :
    (joinRendered ([] : List TranscriptEntry)).length ≤ CHUNK_THRESHOLD ∧
    (ChunkSplitter.split genNashi []).1.length ≠ 1 := by
  exact ⟨by decide, by decide⟩

/-- C4 amended: for every transcript, concatenating the entries of all
chunks returned by `split`, in order, yields exactly the original
transcript; and for every non-empty transcript whose total rendered
length is at most `CHUNK_THRESHOLD` the result is the single whole
chunk with no collaborator call made (the empty transcript instead
yields an empty chunk list and no call, theorem
`c10_split_empty_transcript`). -/
theorem c4_split_partition (gen : BackendOracle) (ts : List TranscriptEntry) :
    (((ChunkSplitter.split gen ts).1.map Chunk.entries).flatten = ts) ∧
    (ts ≠ [] → (joinRendered ts).length ≤ CHUNK_THRESHOLD →
      ChunkSplitter.split gen ts =
        ([{ entries := ts, start_index := 0,
            end_index := ts.length - 1 }], 0)) := by
  constructor
  · unfold ChunkSplitter.split
    by_cases hts : ts.isEmpty
    · rw [if_pos hts]
      simp [List.isEmpty_iff.mp hts]
    · rw [if_neg hts]
      by_cases hth : (joinRendered ts).length ≤ CHUNK_THRESHOLD
      · simp [hth]
      · rw [if_neg hth]
        by_cases hch :
            (buildChunksAux ts (ChunkSplitter.detect_boundaries gen ts).1 0).isEmpty
        · simp [hch]
        · simpa [hch] using
            buildChunksAux_flatten ts (ChunkSplitter.detect_boundaries gen ts).1 0
  · intro hne hth
    have hts : ts.isEmpty = false := by simpa [List.isEmpty_iff] using hne
    unfold ChunkSplitter.split
    rw [hts]
    simp [hth]

/-- Closed witness for `c4_split_partition` on a one-entry transcript
below the threshold. -/
theorem c4_split_partition_witness :
    ChunkSplitter.split genNashi [sampleEntry] =
      ([{ entries := [sampleEntry], start_index := 0, end_index := 0 }], 0) := by
  have h := (c4_split_partition genNashi [sampleEntry]).2 (by decide) (by decide)
  simpa using h

/-- C5: boundary-reply parsing: a stripped reply of `なし` or the empty
reply yields no boundaries; the reply `5,12,23` yields `[5, 12, 23]`
filtered to the open interval `(window_start, window_end)` (so
out-of-range entries are dropped); a malformed comma-separated entry is
silently dropped — the reply `5,x,23` yields only `[5, 23]`, again
window-filtered; and every returned list is sorted ascending. -/
theorem c5_parse_boundaries_contract :
    (∀ lo hi : Int,
      ChunkSplitter.parse_boundaries "なし".data lo hi = [] ∧
      ChunkSplitter.parse_boundaries [] lo hi = []) ∧
    (∀ lo hi : Int,
      ChunkSplitter.parse_boundaries "5,12,23".data lo hi =
        ([5, 12, 23] : List Int).filter
          (fun idx => decide (lo < idx) && decide (idx < hi))) ∧
    (∀ lo hi : Int,
      ChunkSplitter.parse_boundaries "5,x,23".data lo hi =
        ([5, 23] : List Int).filter
          (fun idx => decide (lo < idx) && decide (idx < hi))) ∧
    (∀ (s : PyStr) (lo hi : Int),
      List.Sorted (· ≤ ·) (ChunkSplitter.parse_boundaries s lo hi)) := by
  refine ⟨fun lo hi => ⟨rfl, rfl⟩, fun lo hi => ?_, fun lo hi => ?_,
    fun s lo hi => ?_⟩
  · have h : ChunkSplitter.parse_boundaries "5,12,23".data lo hi =
        List.insertionSort (· ≤ ·)
          (([5, 12, 23] : List Int).filter
            (fun idx => decide (lo < idx) && decide (idx < hi))) := rfl
    rw [h]
    exact List.Sorted.insertionSort_eq (List.Pairwise.filter _ (by decide))
  · have h : ChunkSplitter.parse_boundaries "5,x,23".data lo hi =
        List.insertionSort (· ≤ ·)
          (([5, 23] : List Int).filter
            (fun idx => decide (lo < idx) && decide (idx < hi))) := rfl
    rw [h]
    exact List.Sorted.insertionSort_eq (List.Pairwise.filter _ (by decide))
  · dsimp only [ChunkSplitter.parse_boundaries]
    split
    · exact List.sorted_nil
    · exact List.sorted_insertionSort _ _

/-- C6: when the boundary-detection call raises, or its reply parses to
no accepted boundaries, the splitter records the midpoint of the
current scanning window (`window_start + window_size / 2`) as the next
boundary; and on spec scenario B (25 entries of 1000 rendered
characters each, reply `なし`), the forced split is recorded at index
12 = 0 + 25 / 2, with exactly one collaborator call made. -/
theorem c6_midpoint_fallback :
    (∀ (gen : BackendOracle) (ts : List TranscriptEntry) (fuel ws : Nat),
      ws < ts.length →
      0 < (windowScan (ts.drop ws) 0).1 →
      CHUNK_THRESHOLD ≤ (windowScan (ts.drop ws) 0).2 →
      ((∃ e,
          gen (boundaryPrompt (windowText ts ws (windowScan (ts.drop ws) 0).1)) =
            .error e) ∨
       (∃ r,
          gen (boundaryPrompt (windowText ts ws (windowScan (ts.drop ws) 0).1)) =
            .ok r ∧
          ChunkSplitter.parse_boundaries r (ws : Int)
            ((ws : Int) + ((windowScan (ts.drop ws) 0).1 : Int)) = [])) →
      (detectLoop gen ts (fuel + 1) ws).1.head? =
        some (ws + (windowScan (ts.drop ws) 0).1 / 2)) ∧
    ChunkSplitter.detect_boundaries genNashi ts25 = ([12], 1) := by
  constructor
  · intro gen ts fuel ws hws hn hwtl hfb
    simp only [detectLoop, if_pos hws]
    rw [if_neg (by omega), if_neg (by omega)]
    rcases hfb with ⟨e, he⟩ | ⟨r, hr, hp⟩
    · rw [he]
      rfl
    · rw [hr]
      simp [hp]
  · decide

/-- Closed witness for the general part of `c6_midpoint_fallback`: on
scenario B with a raising backend, the first recorded boundary is the
window midpoint 12. -/
theorem c6_midpoint_fallback_witness :
    (detectLoop genRaise ts25 1 0).1.head? = some 12 := by
  have h := c6_midpoint_fallback.1 genRaise ts25 0 0 (by decide) (by decide)
    (by decide) (Or.inl ⟨"down".data, rfl⟩)
  rw [h]
  decide

/-- The window truncation step never yields more than `window` samples
(for a positive `window`; `pySuffix` would keep everything when
`window = 0`). -/
theorem window_trunc_le (window : Nat) (hw : 1 ≤ window) (l : List α) :
    (if window < l.length then pySuffix l window else l).length ≤ window := by
  split
  · rw [pySuffix, if_neg (by omega)]
    simp only [List.length_drop]
    omega
  · omega

/-- The length of the retained overlap tail is
`min (window - step) prev.length`. -/
theorem overlapTail_length (window step : Nat) (prev : List α) :
    (overlapTail window step prev).length = min (window - step) prev.length := by
  simp only [overlapTail, List.length_drop]
  omega

/-- When `step < window`, the tail stored by the callback is exactly
the overlap tail. -/
theorem keepOf_eq_overlapTail (window step : Nat) (prev : List α)
    (hks : 0 < window - step) :
    keepOf window step prev = overlapTail window step prev := by
  unfold keepOf overlapTail pySuffix
  by_cases h : window - step < prev.length
  · rw [if_pos h, if_neg (by omega)]
  · rw [if_neg h, Nat.sub_eq_zero_of_le (le_of_not_lt h)]
    exact (List.drop_zero prev).symm

/-- When `step = window` (`keep_samples = 0`), the Python slice quirk
`chunk[-0:]` makes the callback retain the whole chunk. -/
theorem keepOf_of_sub_zero (window step : Nat) (chunk : List α)
    (hks : window - step = 0) :
    keepOf window step chunk = chunk := by
  unfold keepOf pySuffix
  rw [hks]
  simp

/-- The first fire of `_audio_callback` (no retained tail yet) on a
block of exactly `step` samples emits the block itself. -/
theorem audioCallback_first_fire (step window N : Nat) (q : List (List α))
    (b : List α) (hs : 1 ≤ step) (hsw : step ≤ window) (hb : b.length = step) :
    audioCallback step window N
        { buffer := [], keep_buffer := none, queue := q } b =
      ({ buffer := [], keep_buffer := some (keepOf window step b),
         queue := queuePush N q b }, some b) := by
  have hge : step ≤ b.length := by omega
  have hnl : ¬ window < b.length := by omega
  simp [audioCallback, hge, hnl]

/-- A subsequent fire of `_audio_callback` on a block of exactly `step`
samples: starting from the tail retained after emitting `prev`, the
emitted window is `prev`'s overlap tail followed by the new block. -/
theorem audioCallback_step_fire (step window N : Nat) (q : List (List α))
    (prev b : List α) (hs : 1 ≤ step) (hsw : step ≤ window)
    (hprev : prev.length ≤ window) (hb : b.length = step) :
    audioCallback step window N
        { buffer := [], keep_buffer := some (keepOf window step prev),
          queue := q } b =
      ({ buffer := [],
         keep_buffer :=
           some (keepOf window step (overlapTail window step prev ++ b)),
         queue := queuePush N q (overlapTail window step prev ++ b) },
       some (overlapTail window step prev ++ b)) := by
  by_cases hks : window - step = 0
  · have hsw' : step = window := by omega
    rw [keepOf_of_sub_zero window step prev hks]
    have hot : overlapTail window step prev = [] := by
      unfold overlapTail
      rw [hks]
      simp
    rw [hot, List.nil_append]
    by_cases hpz : prev.length = 0
    · have hprev0 : prev = [] := List.eq_nil_of_length_eq_zero hpz
      subst hprev0
      have hge : step ≤ b.length := by omega
      have hnl : ¬ window < b.length := by omega
      simp [audioCallback, hge, hnl]
    · have hge : step ≤ (prev ++ b).length := by
        rw [List.length_append, hb]
        omega
      have hlt : window < (prev ++ b).length := by
        rw [List.length_append, hb]
        omega
      have htr : pySuffix (prev ++ b) window = b := by
        unfold pySuffix
        rw [if_neg (by omega)]
        have hlen2 : (prev ++ b).length - window = prev.length := by
          rw [List.length_append, hb]
          omega
        rw [hlen2]
        exact List.drop_left prev b
      have hgeb : step ≤ b.length := by omega
      have hlt2 : window < prev.length + b.length := by omega
      simp [audioCallback, hgeb, hlt2, htr]
  · have hks' : 0 < window - step := Nat.pos_of_ne_zero hks
    rw [keepOf_eq_overlapTail window step prev hks']
    have hlen : (overlapTail window step prev ++ b).length ≤ window := by
      rw [List.length_append, overlapTail_length, hb]
      omega
    have hge : step ≤ (overlapTail window step prev ++ b).length := by
      rw [List.length_append, hb]
      omega
    have hgeb : step ≤ b.length := by omega
    have hnl2 : ¬ window < (overlapTail window step prev).length + b.length := by
      rw [List.length_append] at hlen
      omega
    simp [audioCallback, hgeb, hnl2]

/-- Running the callback over blocks of exactly `step` samples from a
state holding the tail retained after emitting `prev` produces the
`exactEmits` window sequence. -/
theorem runCallbacks_exact_from (step window N : Nat) (hs : 1 ≤ step)
    (hsw : step ≤ window) :
    ∀ (blocks : List (List α)) (prev : List α) (q : List (List α)),
      prev.length ≤ window → (∀ b ∈ blocks, b.length = step) →
      (runCallbacks step window N
        { buffer := [], keep_buffer := some (keepOf window step prev),
          queue := q } blocks).2 = exactEmits window step (some prev) blocks := by
  intro blocks
  induction blocks with
  | nil =>
    intro prev q hprev hbl
    simp [runCallbacks, exactEmits]
  | cons b bs ih =>
    intro prev q hprev hbl
    have hb : b.length = step := hbl b (by simp)
    have hbs : ∀ x ∈ bs, x.length = step := fun x hx => hbl x (by simp [hx])
    have hstep := audioCallback_step_fire step window N q prev b hs hsw hprev hb
    have hlen : (overlapTail window step prev ++ b).length ≤ window := by
      rw [List.length_append, overlapTail_length, hb]
      omega
    simp only [runCallbacks, hstep, Option.toList_some, List.singleton_append]
    rw [ih (overlapTail window step prev ++ b) _ hlen hbs]
    rfl

/-- Running the callback over blocks of exactly `step` samples from the
initial recorder state produces the `exactEmits` window sequence. -/
theorem runCallbacks_exact (step window N : Nat) (hs : 1 ≤ step)
    (hsw : step ≤ window) (blocks : List (List α))
    (hbl : ∀ b ∈ blocks, b.length = step) :
    (runCallbacks step window N (recInit : RecState α) blocks).2 =
      exactEmits window step none blocks := by
  cases blocks with
  | nil => simp [runCallbacks, exactEmits]
  | cons b bs =>
    have hb : b.length = step := hbl b (by simp)
    have hbs : ∀ x ∈ bs, x.length = step := fun x hx => hbl x (by simp [hx])
    have hfirst := audioCallback_first_fire step window N ([] : List (List α))
      b hs hsw hb
    have hblen : b.length ≤ window := by omega
    simp only [recInit, runCallbacks, hfirst, Option.toList_some,
      List.singleton_append]
    rw [runCallbacks_exact_from step window N hs hsw bs b _ hblen hbs]
    rfl

/-- The `exactEmits` sequence satisfies the consecutive-overlap
property: every window after an emitted predecessor `p` begins with
`p`'s overlap tail of length `min (window - step) p.length`. -/
theorem exactEmits_chain (window step : Nat) :
    ∀ (blocks : List (List α)) (p : Option (List α)),
      List.Chain' (overlapSpec window step)
        (p.toList ++ exactEmits window step p blocks) := by
  intro blocks
  induction blocks with
  | nil =>
    intro p
    cases p <;> simp [exactEmits]
  | cons b bs ih =>
    intro p
    cases p with
    | none =>
      simpa [exactEmits] using ih (some b)
    | some prev =>
      have hspec : overlapSpec window step prev (overlapTail window step prev ++ b) := by
        unfold overlapSpec
        rw [← overlapTail_length window step prev]
        exact List.take_left _ _
      have htail := ih (some (overlapTail window step prev ++ b))
      simp only [Option.toList_some, List.singleton_append] at htail ⊢
      simpa [exactEmits, List.chain'_cons] using And.intro hspec htail

/-- Over any input stream, every window the callback emits has length
at most `window`, and the pending buffer always stays strictly below
`step` samples. -/
theorem runCallbacks_window_bound (step window N : Nat) (hs : 1 ≤ step)
    (hw : 1 ≤ window) :
    ∀ (blocks : List (List α)) (s : RecState α), s.buffer.length < step →
      ((∀ e ∈ (runCallbacks step window N s blocks).2, e.length ≤ window) ∧
       (runCallbacks step window N s blocks).1.buffer.length < step) := by
  intro blocks
  induction blocks with
  | nil =>
    intro s hbuf
    exact ⟨by simp [runCallbacks], by simpa [runCallbacks] using hbuf⟩
  | cons b bs ih =>
    intro s hbuf
    have hnext : (audioCallback step window N s b).1.buffer.length < step ∧
        (∀ e, (audioCallback step window N s b).2 = some e →
          e.length ≤ window) := by
      by_cases hfire : step ≤ (s.buffer ++ b).length
      · simp only [audioCallback, if_pos hfire]
        refine ⟨by simpa using hs, fun e he => ?_⟩
        rw [← Option.some_inj.mp he]
        exact window_trunc_le window hw _
      · simp only [audioCallback, if_neg hfire]
        exact ⟨lt_of_not_le hfire, fun e he => by simp at he⟩
    constructor
    · intro e he
      simp only [runCallbacks] at he
      rcases List.mem_append.mp he with hl | hr
      · cases hx : (audioCallback step window N s b).2 with
        | none =>
          rw [hx] at hl
          simp at hl
        | some c =>
          rw [hx] at hl
          simp at hl
          rw [hl]
          exact hnext.2 c hx
      · exact (ih _ hnext.1).1 e hr
    · simpa only [runCallbacks] using (ih _ hnext.1).2

/-- C8 as frozen is refuted at `step = 2`, `window = 4`: the final
window flushed by `stop` is the raw pending buffer without the retained
tail, so it does not overlap its predecessor by
`min (window - step) history = 2` samples; and a single oversized input
block makes truncation eat into the retained tail, so the second
callback window does not start with the first window's 2-sample tail
either. -/
theorem c8_counterexample :
    ((runCallbacks 2 4 10 (recInit : RecState Nat) [[0, 1], [2, 3], [4]]).2 =
        [[0, 1], [0, 1, 2, 3]] ∧
      stopFlushWindow
        (runCallbacks 2 4 10 (recInit : RecState Nat) [[0, 1], [2, 3], [4]]).1 =
        some [4] ∧
      ¬ overlapSpec 4 2 [0, 1, 2, 3] [4]) ∧
    ((runCallbacks 2 4 10 (recInit : RecState Nat) [[0, 1], [2, 3, 4, 5, 6]]).2 =
        [[0, 1], [3, 4, 5, 6]] ∧
      ¬ overlapSpec 4 2 [0, 1] [3, 4, 5, 6]) := by
  refine ⟨⟨by decide, by decide, ?_⟩, by decide, ?_⟩ <;>
    · unfold overlapSpec overlapTail
      decide

/-- C8 amended: assuming `1 ≤ step_samples ≤ window_samples`, every
window emitted by the callback over any input stream has length at most
`window_samples`, and the final window flushed on stop is strictly
shorter than `step_samples` (hence also at most `window_samples`); and
when the input arrives in blocks of exactly `step_samples`, every pair
of consecutive callback-emitted windows overlaps by exactly
`min (window_samples - step_samples) prev.length` samples — the later
window starts with precisely that suffix of the earlier one.  The
stop-flush window shares no retained tail, and truncation after an
oversized block can shrink the overlap (both shown in
`c8_counterexample`). -/
theorem c8_window_invariants (α : Type) (step window N : Nat)
    (hs : 1 ≤ step) (hsw : step ≤ window) :
    (∀ (blocks : List (List α)) (s : RecState α), s.buffer.length < step →
      ((∀ e ∈ (runCallbacks step window N s blocks).2, e.length ≤ window) ∧
       (∀ f, stopFlushWindow (runCallbacks step window N s blocks).1 = some f →
          f.length < step ∧ f.length ≤ window))) ∧
    (∀ blocks : List (List α), (∀ b ∈ blocks, b.length = step) →
      List.Chain' (overlapSpec window step)
        (runCallbacks step window N (recInit : RecState α) blocks).2) := by
  have hw : 1 ≤ window := le_trans hs hsw
  constructor
  · intro blocks s hbuf
    have h := runCallbacks_window_bound step window N hs hw blocks s hbuf
    refine ⟨h.1, fun f hf => ?_⟩
    unfold stopFlushWindow at hf
    by_cases hb : (runCallbacks step window N s blocks).1.buffer.isEmpty
    · rw [if_pos hb] at hf
      cases hf
    · rw [if_neg hb] at hf
      rw [(Option.some_inj.mp hf).symm]
      exact ⟨h.2, le_trans (le_of_lt h.2) hsw⟩
  · intro blocks hbl
    rw [runCallbacks_exact step window N hs hsw blocks hbl]
    simpa using exactEmits_chain window step blocks (none : Option (List α))

/-- Closed witness for `c8_window_invariants` at `step = 2`,
`window = 4`. -/
theorem c8_window_invariants_witness :
    (∀ e ∈ (runCallbacks 2 4 10 (recInit : RecState Nat)
        [[0, 1], [2, 3], [4]]).2, e.length ≤ 4) ∧
    List.Chain' (overlapSpec 4 2)
      (runCallbacks 2 4 10 (recInit : RecState Nat) [[0, 1], [2, 3]]).2 :=
  ⟨((c8_window_invariants Nat 2 4 10 (by decide) (by decide)).1
      [[0, 1], [2, 3], [4]] recInit (by decide)).1,
   (c8_window_invariants Nat 2 4 10 (by decide) (by decide)).2
      [[0, 1], [2, 3]] (by decide)⟩

/-- Scenario A run (sample rate 16000, step 5 s = 80,000 samples,
window 15 s = 240,000 samples; three 5-second feeds): the emitted
windows are the three cumulative concatenations of the feeds. -/
theorem scenario_a_emitted :
    (runCallbacks 80000 240000 10 (recInit : RecState Nat)
        [blockA 1, blockA 2, blockA 3]).2 =
      [blockA 1, blockA 1 ++ blockA 2, (blockA 1 ++ blockA 2) ++ blockA 3] := by
  have hbl : ∀ b ∈ [blockA 1, blockA 2, blockA 3], b.length = 80000 := by
    intro b hb
    simp only [List.mem_cons, List.not_mem_nil, or_false] at hb
    rcases hb with rfl | rfl | rfl <;>
      · unfold blockA
        rw [List.length_replicate]
  rw [runCallbacks_exact 80000 240000 10 (by norm_num) (by norm_num)
    [blockA 1, blockA 2, blockA 3] hbl]
  have h1 : overlapTail 240000 80000 (blockA 1) = blockA 1 := by
    unfold overlapTail blockA
    norm_num
  have h2 : overlapTail 240000 80000 (blockA 1 ++ blockA 2) =
      blockA 1 ++ blockA 2 := by
    unfold overlapTail blockA
    norm_num
  simp only [exactEmits]
  rw [h1, h2]

/-- C7 as frozen is refuted: the three emitted windows have lengths
80,000, 160,000 and 240,000 samples (the third is a full 15-second
window), not 80,000, 160,000 and 160,000. -/
theorem c7_counterexample :
    ¬ ((runCallbacks 80000 240000 10 (recInit : RecState Nat)
        [blockA 1, blockA 2, blockA 3]).2.map List.length =
      [80000, 160000, 160000]) := by
  rw [scenario_a_emitted]
  have l1 : (blockA 1).length = 80000 := by
    unfold blockA
    rw [List.length_replicate]
  have l2 : (blockA 2).length = 80000 := by
    unfold blockA
    rw [List.length_replicate]
  have l3 : (blockA 3).length = 80000 := by
    unfold blockA
    rw [List.length_replicate]
  simp only [List.map_cons, List.map_nil, List.length_append, l1, l2, l3]
  decide

/-- C7 amended: with sample rate 16000, step 5 s and window 15 s,
feeding 5 s of samples three times emits exactly 3 windows — the first
feed alone (80,000 samples), then the first two feeds (160,000
samples), then all three feeds (240,000 samples = the full window
length); each window after the first starts with the whole previous
window, so the consecutive overlaps are 80,000 then 160,000 samples
(`min (window - step) prev.length`, per `overlapSpec`). -/
theorem c7_scenario_a :
    (runCallbacks 80000 240000 10 (recInit : RecState Nat)
        [blockA 1, blockA 2, blockA 3]).2 =
      [blockA 1, blockA 1 ++ blockA 2, (blockA 1 ++ blockA 2) ++ blockA 3] ∧
    (runCallbacks 80000 240000 10 (recInit : RecState Nat)
        [blockA 1, blockA 2, blockA 3]).2.map List.length =
      [80000, 160000, 240000] ∧
    List.Chain' (overlapSpec 240000 80000)
      (runCallbacks 80000 240000 10 (recInit : RecState Nat)
        [blockA 1, blockA 2, blockA 3]).2 := by
  have hbl : ∀ b ∈ [blockA 1, blockA 2, blockA 3], b.length = 80000 := by
    intro b hb
    simp only [List.mem_cons, List.not_mem_nil, or_false] at hb
    rcases hb with rfl | rfl | rfl <;>
      · unfold blockA
        rw [List.length_replicate]
  refine ⟨scenario_a_emitted, ?_, ?_⟩
  · rw [scenario_a_emitted]
    have l1 : (blockA 1).length = 80000 := by
      unfold blockA
      rw [List.length_replicate]
    have l2 : (blockA 2).length = 80000 := by
      unfold blockA
      rw [List.length_replicate]
    have l3 : (blockA 3).length = 80000 := by
      unfold blockA
      rw [List.length_replicate]
    simp only [List.map_cons, List.map_nil, List.length_append, l1, l2, l3]
  · rw [runCallbacks_exact 80000 240000 10 (by norm_num) (by norm_num)
      [blockA 1, blockA 2, blockA 3] hbl]
    simpa using
      exactEmits_chain 240000 80000 [blockA 1, blockA 2, blockA 3]
        (none : Option (List Nat))

/-- C9: the bounded chunk queue (capacity `N`, reference value 10)
never exceeds `N` items along any run of the audio callback, and a push
into a full queue evicts exactly the single oldest item before
inserting the new one (drop-oldest, never drop-newest).  The push is
`put_nowait`-based and modelled by the total function `queuePush`, so
it never blocks the producer. -/
theorem c9_queue_bound (α : Type) (N : Nat) (hN : 1 ≤ N) :
    (∀ (q : List (List α)) (c : List α),
      (q.length ≤ N → (queuePush N q c).length ≤ N) ∧
      (q.length = N → queuePush N q c = q.drop 1 ++ [c])) ∧
    (∀ (step window : Nat) (blocks : List (List α)) (s : RecState α),
      s.queue.length ≤ N →
      (runCallbacks step window N s blocks).1.queue.length ≤ N) := by
  have hpush : ∀ (q : List (List α)) (c : List α), q.length ≤ N →
      (queuePush N q c).length ≤ N := by
    intro q c hq
    unfold queuePush
    by_cases h1 : N = 0 ∨ q.length < N
    · rw [if_pos h1]
      rw [List.length_append, List.length_singleton]
      omega
    · rw [if_neg h1]
      by_cases h2 : q.isEmpty
      · rw [if_pos h2]
        exact hq
      · rw [if_neg h2]
        rw [List.length_append, List.length_singleton, List.length_drop]
        omega
  refine ⟨fun q c => ⟨hpush q c, fun hq => ?_⟩, ?_⟩
  · have hne : q.isEmpty = false := by
      rcases q with _ | ⟨x, xs⟩
      · rw [List.length_nil] at hq
        omega
      · rfl
    unfold queuePush
    rw [if_neg (by omega), hne]
    simp
  · intro step window blocks
    induction blocks with
    | nil =>
      intro s hsq
      simpa [runCallbacks] using hsq
    | cons b bs ih =>
      intro s hsq
      have hq1 : (audioCallback step window N s b).1.queue.length ≤ N := by
        by_cases hfire : step ≤ (s.buffer ++ b).length
        · simp only [audioCallback, if_pos hfire]
          exact hpush _ _ hsq
        · simp only [audioCallback, if_neg hfire]
          exact hsq
      simpa only [runCallbacks] using ih (audioCallback step window N s b).1 hq1

/-- Closed witness for `c9_queue_bound` at `N = 10`: a push keeps the
bound, a push into a full queue drops the oldest entry, and a concrete
run stays within the bound. -/
theorem c9_queue_bound_witness :
    (queuePush 10 (List.replicate 10 ([7] : List Nat)) [9]).length ≤ 10 ∧
    queuePush 10 (List.replicate 10 ([7] : List Nat)) [9] =
      (List.replicate 10 ([7] : List Nat)).drop 1 ++ [[9]] ∧
    (runCallbacks 2 4 10 (recInit : RecState Nat)
      [[0, 1], [2, 3]]).1.queue.length ≤ 10 :=
  ⟨((c9_queue_bound Nat 10 (by decide)).1 (List.replicate 10 [7]) [9]).1
      (by decide),
   ((c9_queue_bound Nat 10 (by decide)).1 (List.replicate 10 [7]) [9]).2
      (by decide),
   (c9_queue_bound Nat 10 (by decide)).2 2 4 [[0, 1], [2, 3]] recInit
      (by decide)⟩
